import Mathlib

/-
  Verification of VisualizeLog.py (SystemResourceLogger).

  Shallow embedding of the single pipeline in src/VisualizeLog.py:
  file discovery, load/validate/concatenate, timestamp coercion and sort,
  wide-to-long reshaping of per-slot (name, value) columns, per-family
  top-K filtering by peak value, and chart assembly bookkeeping.

  Numeric values (Python floats) are modelled as rationals; timestamps as
  `Option ℚ` where `none` models pandas NaT. Fallible Python operations
  (float() coercion, pandas to_datetime, DataFrame column access, tuple
  unpacking) are modelled with `Except String`.
-/

namespace VisualizeLog

deriving instance DecidableEq for Except

/-- Rational addition through `mkRat`, definitionally transparent to the
kernel (the standard addition on ℚ is sealed against unfolding). -/
def qAdd (a b : ℚ) : ℚ := mkRat (a.num * b.den + b.num * a.den) (a.den * b.den)

theorem qAdd_eq_add (a b : ℚ) : qAdd a b = a + b := by
  rw [Rat.add_def, Rat.normalize_eq_mkRat]
  rfl

/-- Sum of a list of rationals through `qAdd`. -/
def qSum : List ℚ → ℚ
  | [] => 0
  | v :: vs => qAdd v (qSum vs)

theorem qSum_eq_sum (l : List ℚ) : qSum l = l.sum := by
  induction l with
  | nil => rfl
  | cons v vs ih => rw [qSum, qAdd_eq_add, ih, List.sum_cons]

/-- A pandas cell as produced by `pd.read_csv`: missing data (NaN/NaT),
a string, or a number. -/
inductive Cell where
  | null : Cell
  | str (s : String) : Cell
  | num (q : ℚ) : Cell
deriving DecidableEq

/-- One row of a parsed CSV file, as an association list from column name
to cell. Columns absent from the list read as `Cell.null` (the NaN fill
that `pd.concat` introduces for columns a source frame lacks). -/
abbrev RowA := List (String × Cell)

/-- Reading a labelled entry from a row Series: missing label yields NaN. -/
def rowCell (r : RowA) (c : String) : Cell :=
  ((r.find? (fun p => p.1 == c)).map (fun p => p.2)).getD Cell.null

/-- A parsed DataFrame: its column labels and its rows. -/
structure DF where
  cols : List String
  rows : List RowA
deriving DecidableEq

/-- One entry of a long table: (timestamp, process name, value).
`ts = none` models NaT. -/
structure LongRow where
  ts : Option ℚ
  name : String
  value : ℚ
deriving DecidableEq

/-- One candidate input file: its name and the outcome of `pd.read_csv`
on it (`.error e` models a raised parse exception with message `e`). -/
structure FileInput where
  name : String
  parsed : Except String DF

/-- Digit list to natural number, most significant first. -/
def digitsNat (l : List Char) : Nat :=
  l.foldl (fun n c => 10 * n + (c.toNat - 48)) 0

/-- Split a character list at the first dot, if any. -/
def splitDot : List Char → List Char × Option (List Char)
  | [] => ([], none)
  | c :: cs =>
    if c = '.' then ([], some cs)
    else
      let p := splitDot cs
      (c :: p.1, p.2)

/-- Strip the surrounding spaces of a character list. -/
def trimChars (l : List Char) : List Char :=
  ((l.dropWhile (fun c => c = ' ')).reverse.dropWhile (fun c => c = ' ')).reverse

/-- Model of the Python `float(str)` parse: optional sign, decimal digits
with an optional fractional part. Scientific forms are not modelled; all
inputs exercised below are plain decimals or non-numeric text. -/
def parseFloat? (s : String) : Option ℚ :=
  let cs := trimChars s.toList
  let signed : ℚ × List Char :=
    match cs with
    | '-' :: r => (-1, r)
    | '+' :: r => (1, r)
    | r => (1, r)
  let p := splitDot signed.2
  match p.2 with
  | none =>
    if p.1 ≠ [] ∧ p.1.all Char.isDigit then some (signed.1 * digitsNat p.1) else none
  | some fp =>
    if (p.1 ≠ [] ∨ fp ≠ []) ∧ p.1.all Char.isDigit ∧ fp.all Char.isDigit then
      some (signed.1 * ((digitsNat p.1 : ℚ) + (digitsNat fp : ℚ) / (10 : ℚ) ^ fp.length))
    else none

/-- Model of the Python builtin `float` applied to a cell (line 63 of the
source). Numbers pass through; strings are parsed and raise ValueError
when non-numeric. The `null` case is unreachable in the pipeline (guarded
by `pd.notna`); NaN is not representable in ℚ, so it is mapped to 0. -/
def pyFloat : Cell → Except String ℚ
  | Cell.num q => Except.ok q
  | Cell.str s =>
    match parseFloat? s with
    | some q => Except.ok q
    | none => Except.error ("ValueError: could not convert string to float: " ++ s)
  | Cell.null => Except.ok 0

/-- Model of the Python builtin `str` applied to a cell (line 62). -/
def cellStr : Cell → String
  | Cell.str s => s
  | Cell.num q => toString q
  | Cell.null => "nan"

/-- Trimmed all-digit string to a natural number. -/
def digitStr? (s : String) : Option Nat :=
  let l := trimChars s.toList
  if l ≠ [] ∧ l.all Char.isDigit then some (digitsNat l) else none

/-- Model of `pd.to_datetime` on one cell (line 41). NaN becomes NaT
(`none`) without error; numbers are accepted as epoch offsets; strings
parse when well formed and raise otherwise. Parseable date strings are
modelled as digit strings. -/
def pdToDatetime : Cell → Except String (Option ℚ)
  | Cell.null => Except.ok none
  | Cell.num q => Except.ok (some q)
  | Cell.str s =>
    match digitStr? s with
    | some n => Except.ok (some (n : ℚ))
    | none => Except.error ("ValueError: could not parse timestamp: " ++ s)

/-- Ordering on optional timestamps used for `sort_values('Timestamp')`:
`none` (NaT) sorts last, mirroring the pandas default na_position. -/
def otLe (a b : Option ℚ) : Prop :=
  match a, b with
  | none, none => True
  | some _, none => True
  | none, some _ => False
  | some x, some y => x ≤ y

instance : DecidableRel otLe := fun a b =>
  match a, b with
  | none, none => isTrue trivial
  | some _, none => isTrue trivial
  | none, some _ => isFalse id
  | some x, some y => inferInstanceAs (Decidable (x ≤ y))

instance : IsTotal (Option ℚ) otLe :=
  ⟨fun a b =>
    match a, b with
    | none, none => Or.inl trivial
    | some _, none => Or.inl trivial
    | none, some _ => Or.inr trivial
    | some x, some y => (le_total x y).imp id id⟩

instance : IsTrans (Option ℚ) otLe :=
  ⟨fun a b c hab hbc =>
    match a, b, c, hab, hbc with
    | none, _, none, _, _ => trivial
    | some _, _, none, _, _ => trivial
    | _, none, some _, _, hbc => hbc.elim
    | none, some _, some _, hab, _ => hab.elim
    | some _, some _, some _, hab, hbc => le_trans hab hbc⟩

/-- Row ordering for the merged table sort: by coerced timestamp. -/
def tsRowLe (a b : Option ℚ × RowA) : Prop := otLe a.1 b.1

instance : DecidableRel tsRowLe := fun a b =>
  inferInstanceAs (Decidable (otLe a.1 b.1))

instance : IsTotal (Option ℚ × RowA) tsRowLe :=
  ⟨fun a b => total_of otLe a.1 b.1⟩

instance : IsTrans (Option ℚ × RowA) tsRowLe :=
  ⟨fun _ _ _ hab hbc => trans_of otLe hab hbc⟩

/-- Code-point comparison of character lists: the lexicographic string
order Python and pandas sort by. -/
def charListLe : List Char → List Char → Bool
  | [], _ => true
  | _ :: _, [] => false
  | a :: as, b :: bs => if a = b then charListLe as bs else decide (a.toNat < b.toNat)

/-- String order by code points. -/
def strLe (a b : String) : Prop := charListLe a.toList b.toList = true

instance : DecidableRel strLe := fun a b =>
  inferInstanceAs (Decidable (charListLe a.toList b.toList = true))

/-- Ordering of `(name, max value)` entries by value, descending: models
`sort_values(ascending=False)` on the per-name maxima. -/
def descBySnd (a b : String × ℚ) : Prop := b.2 ≤ a.2

instance : DecidableRel descBySnd := fun a b =>
  inferInstanceAs (Decidable (b.2 ≤ a.2))

instance : IsTotal (String × ℚ) descBySnd :=
  ⟨fun a b => (le_total b.2 a.2).imp id id⟩

instance : IsTrans (String × ℚ) descBySnd :=
  ⟨fun _ _ _ hab hbc => le_trans hbc hab⟩

/-- Lexicographic order on `(timestamp, name)` grouping keys: models the
sorted key order of `groupby(['Timestamp', 'ProcessName'])`. -/
def keyLe (a b : ℚ × String) : Prop :=
  a.1 < b.1 ∨ (a.1 = b.1 ∧ strLe a.2 b.2)

instance : DecidableRel keyLe := fun a b => by
  unfold keyLe
  infer_instance

/-- File ordering for `log_files.sort()`: lexicographic by name. -/
def fileLe (a b : FileInput) : Prop := strLe a.name b.name

instance : DecidableRel fileLe := fun a b =>
  inferInstanceAs (Decidable (strLe a.name b.name))

/-- The distinct process names of a long table, ascending: the group keys
of `groupby('ProcessName')` (pandas sorts group keys). -/
def distinctNamesSorted (df : List LongRow) : List String :=
  List.insertionSort strLe ((df.map (fun r => r.name)).dedup)

/-- Maximum observed value of one process name over a long table: the
`groupby('ProcessName')[value_col].max()` aggregate. Returns 0 on a name
with no rows (never queried in the pipeline). -/
def maxValAt (df : List LongRow) (n : String) : ℚ :=
  match (df.filter (fun r => r.name == n)).map (fun r => r.value) with
  | [] => 0
  | v :: vs => vs.foldl max v

/-- Line 80: per-name maxima in ascending name order. -/
def max_usage (df : List LongRow) : List (String × ℚ) :=
  (distinctNamesSorted df).map (fun n => (n, maxValAt df n))

/-- Result of `filter_top_consumers`: the empty branch (line 78) returns
the bare DataFrame, the main branch (line 82) returns a pair. -/
inductive FTCResult where
  | dfOnly (df : List LongRow) : FTCResult
  | pair (df : List LongRow) (names : List String) : FTCResult
deriving DecidableEq

/-- Line 80 continued: per-name maxima sorted descending by value. -/
def sortedUsage (df : List LongRow) : List (String × ℚ) :=
  List.insertionSort descBySnd (max_usage df)

/-- Line 81: the first `k` names of the descending ranking. -/
def topConsumers (df : List LongRow) (k : Nat) : List String :=
  ((sortedUsage df).take k).map (fun p => p.1)

/-- Lines 77-82. The `top_n` default of 10 in the source is never used:
the two call sites pass 5 and 3 explicitly. -/
def filter_top_consumers (df : List LongRow) (top_n : Nat) : FTCResult :=
  if df = [] then FTCResult.dfOnly df
  else FTCResult.pair
    (df.filter (fun r => (topConsumers df top_n).contains r.name))
    (topConsumers df top_n)

/-- The long table carried by either selector result. -/
def FTCResult.table : FTCResult → List LongRow
  | FTCResult.dfOnly df => df
  | FTCResult.pair df _ => df

/-- The set of process names the selector selected. The bare-DataFrame
branch returns no name list; it selects nothing, encoded as the empty
set. -/
def FTCResult.selected : FTCResult → Finset String
  | FTCResult.dfOnly _ => ∅
  | FTCResult.pair _ ns => ns.toFinset

/-- The distinct non-NaT `(timestamp, name)` grouping keys of a raw long
table, in first-kept `dedup` order. Rows with NaT timestamps are dropped,
as by the pandas groupby default. -/
def rawKeys (l : List LongRow) : List (ℚ × String) :=
  (l.filterMap (fun r => r.ts.map (fun t => (t, r.name)))).dedup

/-- Sum of the values of a raw long table at one grouping key. -/
def sumAt (l : List LongRow) (t : ℚ) (n : String) : ℚ :=
  qSum ((l.filter (fun r => decide (r.ts = some t ∧ r.name = n))).map (fun r => r.value))

/-- Lines 70 and 74: `groupby(['Timestamp', 'ProcessName'],
as_index=False)['Value'].sum()` — one output row per distinct non-NaT
key, holding the summed value, keys in sorted order. -/
def groupby_ts_name (l : List LongRow) : List LongRow :=
  (List.insertionSort keyLe (rawKeys l)).map (fun k => ⟨some k.1, k.2, sumAt l k.1 k.2⟩)

/-- Name column label of slot `i` (line 52). -/
def nameColOf (prefix_name : String) (i : Nat) : String :=
  prefix_name ++ toString i ++ "_Name"

/-- Value column label of slot `i` (line 53). -/
def valColOf (prefix_val : String) (i : Nat) (val_col_name : String) : String :=
  prefix_val ++ toString i ++ "_" ++ val_col_name

/-- Lines 55-64: one slot of one row (`p_name` and `p_val` of the source
written inline). Emits at most one long row; raises (ValueError) when the
present, non-null value cell fails float coercion. -/
def extractSlot (cols : List String) (ts : Option ℚ) (row : RowA) (nc vc : String) :
    Except String (List LongRow) :=
  if cols.contains nc ∧ cols.contains vc then
    if rowCell row nc ≠ Cell.null ∧ rowCell row vc ≠ Cell.null then
      (pyFloat (rowCell row vc)).map (fun v => [⟨ts, cellStr (rowCell row nc), v⟩])
    else Except.ok []
  else Except.ok []

/-- The inner loop of lines 51-64 over the slot indices of one row. -/
def extractRowSlots (cols : List String) (ts : Option ℚ) (row : RowA)
    (prefix_name prefix_val val_col_name : String) :
    List Nat → Except String (List LongRow)
  | [] => Except.ok []
  | i :: is => do
    let x ← extractSlot cols ts row (nameColOf prefix_name i) (valColOf prefix_val i val_col_name)
    let r ← extractRowSlots cols ts row prefix_name prefix_val val_col_name is
    Except.ok (x ++ r)

/-- Lines 47-65: `extract_top_data` over the merged, timestamp-coerced,
sorted table (given as its column labels and `(timestamp, row)` pairs). -/
def extract_top_data (cols : List String) (prefix_name prefix_val : String)
    (count : Nat) (val_col_name : String) :
    List (Option ℚ × RowA) → Except String (List LongRow)
  | [] => Except.ok []
  | p :: rest => do
    let x ← extractRowSlots cols p.1 p.2 prefix_name prefix_val val_col_name
      (List.range' 1 count)
    let r ← extract_top_data cols prefix_name prefix_val count val_col_name rest
    Except.ok (x ++ r)

/-- One slot of one row, in the words of the spec: a long row exactly
when the two slot columns are present and both cells non-null, its value
the float coercion of the value cell. Used only to compare with
`extract_top_data`. -/
def slotSpec (cols : List String) (prefix_name prefix_val val_col_name : String)
    (p : Option ℚ × RowA) (i : Nat) : Option LongRow :=
  if (cols.contains (nameColOf prefix_name i)
        ∧ cols.contains (valColOf prefix_val i val_col_name)) ∧
      rowCell p.2 (nameColOf prefix_name i) ≠ Cell.null ∧
      rowCell p.2 (valColOf prefix_val i val_col_name) ≠ Cell.null then
    match pyFloat (rowCell p.2 (valColOf prefix_val i val_col_name)) with
    | Except.ok v => some ⟨p.1, cellStr (rowCell p.2 (nameColOf prefix_name i)), v⟩
    | Except.error _ => none
  else none

/-- Restatement of the reshaper contract in the words of the spec: one
long row per (row, slot index) whose name and value columns are present
and whose name and value cells are non-null, row-major, the value coerced
to a number. Used only to compare with `extract_top_data`. -/
def extract_spec (cols : List String) (prefix_name prefix_val : String)
    (count : Nat) (val_col_name : String) (rows : List (Option ℚ × RowA)) :
    List LongRow :=
  rows.flatMap (fun p =>
    (List.range' 1 count).filterMap
      (slotSpec cols prefix_name prefix_val val_col_name p))

/-- Line 12 diagnostic. -/
def noFilesMsg : String := "No log files (*_log.csv) found in the current directory."

/-- Line 35 diagnostic. -/
def noValidMsg : String := "Could not read any valid data (New Format)."

/-- Line 30 diagnostic for a parsed file lacking the marker column. -/
def skipMsg (f : String) : String :=
  "Skipping " ++ f ++ ": Old format (missing NonPagedPoolMB)"

/-- Line 32 diagnostic for a file whose parse raised. -/
def readErrMsg (f e : String) : String := "Error reading " ++ f ++ ": " ++ e

/-- Line 18 message listing the discovered files. -/
def foundMsg (names : List String) : String :=
  "Found log files: " ++ String.intercalate ", " names

/-- Lines 149-152 success messages; the absolute output path is modelled
by the fixed file name. -/
def successMsgs : List String :=
  ["Successfully created report: MemoryForensicsReport.html",
   "報告已成功生成！請打開 MemoryForensicsReport.html 查看。",
   "Report has been successfully generated! Please open MemoryForensicsReport.html to view."]

/-- Model of the glob pattern `*_log.csv` on a file name. -/
def matchesLogPattern (s : String) : Bool :=
  List.isSuffixOf "_log.csv".toList s.toList

/-- Lines 10 and 16: the matching files of the working directory, sorted
lexicographically by name. -/
def discover (dir : List FileInput) : List FileInput :=
  List.insertionSort fileLe (dir.filter (fun f => matchesLogPattern f.name))

/-- Lines 21-32: per-file load loop. Returns the diagnostics printed (in
file order) and the frames that parsed and contain the marker column. -/
def loadValid : List FileInput → List String × List DF
  | [] => ([], [])
  | f :: rest =>
    let p := loadValid rest
    match f.parsed with
    | Except.ok df =>
      if df.cols.contains "NonPagedPoolMB" then (p.1, df :: p.2)
      else (skipMsg f.name :: p.1, p.2)
    | Except.error e => (readErrMsg f.name e :: p.1, p.2)

/-- Column-label union in first-appearance order, as `pd.concat` builds
the merged frame out of frames with differing columns. -/
def unionCols (ls : List (List String)) : List String :=
  ls.foldl (fun acc cs => acc ++ cs.filter (fun c => ¬ acc.contains c)) []

/-- Line 38: `pd.concat(all_dfs, ignore_index=True)`. -/
def concatDF (dfs : List DF) : DF :=
  ⟨unionCols (dfs.map (fun d => d.cols)), (dfs.map (fun d => d.rows)).flatten⟩

/-- Coerce the Timestamp entry of every row, pairing each row with its
parsed timestamp; the first unparseable entry raises. -/
def coerceRows : List RowA → Except String (List (Option ℚ × RowA))
  | [] => Except.ok []
  | r :: rest => do
    let t ← pdToDatetime (rowCell r "Timestamp")
    let rs ← coerceRows rest
    Except.ok ((t, r) :: rs)

/-- Line 41: coerce the Timestamp column. Raises KeyError when the merged
frame has no such column, and ValueError on an unparseable entry. -/
def coerceTs (df : DF) : Except String (List (Option ℚ × RowA)) :=
  if df.cols.contains "Timestamp" then coerceRows df.rows
  else Except.error "KeyError: Timestamp"

/-- Line 42: `sort_values('Timestamp')`. -/
def sortByTs (l : List (Option ℚ × RowA)) : List (Option ℚ × RowA) :=
  List.insertionSort tsRowLe l

/-- Lines 70 and 74 as executed on the raw frame built at line 65: a raw
long table with no rows was built as `pd.DataFrame([])`, which has no
columns, so grouping it by Timestamp raises KeyError. -/
def groupbyStep (raw : List LongRow) : Except String (List LongRow) :=
  if raw = [] then Except.error "KeyError: Timestamp"
  else Except.ok (groupby_ts_name raw)

/-- Lines 85-86: the two-target assignment unpacking the selector result.
The bare-DataFrame result of the empty branch iterates over its column
labels (never exactly two of them here), so unpacking raises ValueError. -/
def unpack2 : FTCResult → Except String (List LongRow × List String)
  | FTCResult.pair f ns => Except.ok (f, ns)
  | FTCResult.dfOnly _ => Except.error "ValueError: not enough values to unpack"

/-- Column access `df_main[c]` at lines 104-109: KeyError when absent. -/
def requireCol (cols : List String) (c : String) : Except String Unit :=
  if cols.contains c then Except.ok () else Except.error ("KeyError: " ++ c)

/-- Everything about a finished run that the claims consult: the merged
sorted table, both filtered long tables with their selected names, and
the number of per-process series drawn on chart rows 3 and 4. -/
structure Report where
  dfMain : List (Option ℚ × RowA)
  memFiltered : List LongRow
  memConsumers : List String
  handleFiltered : List LongRow
  handleConsumers : List String
  row3Series : Nat
  row4Series : Nat
deriving DecidableEq

/-- How a run ends: the HTML file written, a graceful early return with
no output, or an uncaught exception. -/
inductive Outcome where
  | wrote (rep : Report) : Outcome
  | halted : Outcome
  | crashed (e : String) : Outcome
deriving DecidableEq

/-- A whole run: the diagnostics printed and how it ended. -/
structure RunResult where
  msgs : List String
  outcome : Outcome
deriving DecidableEq

/-- Lines 38-152: the fallible tail of the pipeline, from concatenation
to chart assembly, on the surviving frames. -/
def pipelineCore (dfs : List DF) : Except String Report := do
  let dfc := concatDF dfs
  let rs ← coerceTs dfc
  let df_main := sortByTs rs
  let df_mem_raw ← extract_top_data dfc.cols "TopMem" "TopMem" 10 "MB" df_main
  let df_mem ← groupbyStep df_mem_raw
  let df_handle_raw ← extract_top_data dfc.cols "TopHandle" "TopHandle" 5 "Count" df_main
  let df_handle ← groupbyStep df_handle_raw
  let memPair ← unpack2 (filter_top_consumers df_mem 5)
  let handlePair ← unpack2 (filter_top_consumers df_handle 3)
  let _ ← requireCol dfc.cols "TotalMB"
  let _ ← requireCol dfc.cols "UsedMB"
  let _ ← requireCol dfc.cols "NonPagedPoolMB"
  let _ ← requireCol dfc.cols "PagedPoolMB"
  Except.ok
    { dfMain := df_main
      memFiltered := memPair.1
      memConsumers := memPair.2
      handleFiltered := handlePair.1
      handleConsumers := handlePair.2
      row3Series := if memPair.1 ≠ [] then memPair.2.length else 0
      row4Series := if handlePair.1 ≠ [] then handlePair.2.length else 0 }

/-- Lines 8-152: the whole `generate_report` run on the files of the
working directory. -/
def generate_report (dir : List FileInput) : RunResult :=
  if (discover dir).isEmpty then ⟨[noFilesMsg], Outcome.halted⟩
  else if (loadValid (discover dir)).2.isEmpty then
    ⟨foundMsg ((discover dir).map (fun f => f.name))
      :: (loadValid (discover dir)).1 ++ [noValidMsg], Outcome.halted⟩
  else
    match pipelineCore (loadValid (discover dir)).2 with
    | Except.ok rep =>
      ⟨foundMsg ((discover dir).map (fun f => f.name))
        :: (loadValid (discover dir)).1 ++ successMsgs, Outcome.wrote rep⟩
    | Except.error e =>
      ⟨foundMsg ((discover dir).map (fun f => f.name))
        :: (loadValid (discover dir)).1, Outcome.crashed e⟩

/-- A snapshot row holding only the scalar system counters. -/
def sysRow (t : ℚ) : RowA :=
  [("Timestamp", Cell.num t), ("TotalMB", Cell.num 16000), ("UsedMB", Cell.num 8000),
   ("NonPagedPoolMB", Cell.num 100), ("PagedPoolMB", Cell.num 200)]

/-- Column labels of a well-formed new-format log file with two memory
slots and one handle slot. -/
def goodCols : List String :=
  ["Timestamp", "TotalMB", "UsedMB", "NonPagedPoolMB", "PagedPoolMB",
   "TopMem1_Name", "TopMem1_MB", "TopMem2_Name", "TopMem2_MB",
   "TopHandle1_Name", "TopHandle1_Count"]

/-- Snapshot at time 2: process A in both memory slots with 10 and 15. -/
def goodRow1 : RowA :=
  sysRow 2 ++
  [("TopMem1_Name", Cell.str "A"), ("TopMem1_MB", Cell.num 10),
   ("TopMem2_Name", Cell.str "A"), ("TopMem2_MB", Cell.num 15),
   ("TopHandle1_Name", Cell.str "B"), ("TopHandle1_Count", Cell.num 100)]

/-- Snapshot at time 1: process C in memory slot 1, slot 2 null. -/
def goodRow2 : RowA :=
  sysRow 1 ++
  [("TopMem1_Name", Cell.str "C"), ("TopMem1_MB", Cell.num 7),
   ("TopMem2_Name", Cell.null), ("TopMem2_MB", Cell.null),
   ("TopHandle1_Name", Cell.str "B"), ("TopHandle1_Count", Cell.num 90)]

/-- A well-formed new-format log frame, rows deliberately out of
timestamp order. -/
def goodDF : DF := ⟨goodCols, [goodRow1, goodRow2]⟩

/-- A directory with one well-formed log file. -/
def sampleDir : List FileInput := [⟨"a_log.csv", Except.ok goodDF⟩]

/-- The merged, coerced, sorted table of the sample directory. -/
def sampleMain : List (Option ℚ × RowA) := [(some 1, goodRow2), (some 2, goodRow1)]

/-- The raw memory long table of the sample directory, row-major over
rows then slots. -/
def sampleMemRaw : List LongRow :=
  [⟨some 1, "C", 7⟩, ⟨some 2, "A", 10⟩, ⟨some 2, "A", 15⟩]

/-- The report the sample directory produces. -/
def sampleReport : Report :=
  { dfMain := sampleMain
    memFiltered := [⟨some 1, "C", 7⟩, ⟨some 2, "A", 25⟩]
    memConsumers := ["A", "C"]
    handleFiltered := [⟨some 1, "B", 90⟩, ⟨some 2, "B", 100⟩]
    handleConsumers := ["B"]
    row3Series := 2
    row4Series := 1 }

/-- A valid new-format frame whose rows carry no slot pair at all: both
extracted long tables are empty. -/
def c1DF : DF :=
  ⟨["Timestamp", "TotalMB", "UsedMB", "NonPagedPoolMB", "PagedPoolMB"], [sysRow 1]⟩

/-- A directory whose single valid file yields empty long tables. -/
def c1Dir : List FileInput := [⟨"sys_log.csv", Except.ok c1DF⟩]

/-- A valid new-format frame whose one present slot value is the
non-numeric string abc. -/
def badValDF : DF :=
  ⟨["Timestamp", "TotalMB", "UsedMB", "NonPagedPoolMB", "PagedPoolMB",
    "TopMem1_Name", "TopMem1_MB"],
   [sysRow 1 ++ [("TopMem1_Name", Cell.str "x"), ("TopMem1_MB", Cell.str "abc")]]⟩

/-- A directory whose single valid file carries that non-numeric value. -/
def badValDir : List FileInput := [⟨"b_log.csv", Except.ok badValDF⟩]

/-- A frame in the legacy schema: no NonPagedPoolMB column. -/
def oldDF : DF := ⟨["Timestamp", "MemMB"], [[("Timestamp", Cell.num 1), ("MemMB", Cell.num 5)]]⟩

/-- A matching file that parses but fails the marker-column check. -/
def oldFile : FileInput := ⟨"old_log.csv", Except.ok oldDF⟩

/-- A directory holding only that legacy file. -/
def oldDir : List FileInput := [oldFile]

/-- A small long table with two distinct process names. -/
def wLong : List LongRow := [⟨some 1, "A", 10⟩, ⟨some 2, "B", 5⟩]

theorem skipMsg_mem_loadValid {files : List FileInput} {f : FileInput} {df : DF}
    (hf : f ∈ files) (hp : f.parsed = Except.ok df)
    (hm : df.cols.contains "NonPagedPoolMB" = false) :
    skipMsg f.name ∈ (loadValid files).1 := by
  induction files with
  | nil => cases hf
  | cons g rest ih =>
    rcases List.mem_cons.mp hf with hfg | hf
    · subst hfg
      simp only [loadValid, hp, hm]
      exact List.mem_cons_self _ _
    · have := ih hf
      cases hq : g.parsed with
      | ok dg =>
        by_cases hc : dg.cols.contains "NonPagedPoolMB"
        · simp only [loadValid, hq, hc, if_true]
          exact this
        · simp only [loadValid, hq, Bool.eq_false_iff.mpr hc, if_false]
          exact List.mem_cons_of_mem _ this
      | error e =>
        simp only [loadValid, hq]
        exact List.mem_cons_of_mem _ this

theorem generate_report_msgs_structure (dir : List FileInput)
    (hne : (discover dir).isEmpty = false) :
    ∃ tail, (generate_report dir).msgs
      = foundMsg ((discover dir).map (fun f => f.name))
        :: (loadValid (discover dir)).1 ++ tail := by
  unfold generate_report
  rw [hne]
  simp only [Bool.false_eq_true, if_false]
  by_cases h2 : (loadValid (discover dir)).2.isEmpty
  · rw [h2]
    exact ⟨[noValidMsg], rfl⟩
  · rw [Bool.eq_false_iff.mpr h2]
    simp only [Bool.false_eq_true, if_false]
    cases hc : pipelineCore (loadValid (discover dir)).2 with
    | ok rep => exact ⟨successMsgs, rfl⟩
    | error e => exact ⟨[], by simp⟩

/-- Claim C9: a matching file that parses but lacks the marker column
NonPagedPoolMB is skipped with the skip diagnostic, and when no file
survives validation the pipeline prints the no-valid-data diagnostic and
halts with no HTML written. -/
theorem C9_old_format_skip (dir : List FileInput) (f : FileInput) (df : DF)
    (hf : f ∈ discover dir) (hp : f.parsed = Except.ok df)
    (hm : df.cols.contains "NonPagedPoolMB" = false) :
    skipMsg f.name ∈ (generate_report dir).msgs ∧
    ((loadValid (discover dir)).2 = [] →
      (generate_report dir).outcome = Outcome.halted ∧
      noValidMsg ∈ (generate_report dir).msgs) := by
  have hskip : skipMsg f.name ∈ (loadValid (discover dir)).1 :=
    skipMsg_mem_loadValid hf hp hm
  have hne : (discover dir).isEmpty = false := by
    rw [Bool.eq_false_iff]
    intro hx
    rw [List.isEmpty_iff.mp hx] at hf
    cases hf
  constructor
  · obtain ⟨tail, ht⟩ := generate_report_msgs_structure dir hne
    rw [ht]
    exact List.mem_cons_of_mem _ (List.mem_append_left _ hskip)
  · intro h2
    have h2' : (loadValid (discover dir)).2.isEmpty = true := by
      rw [List.isEmpty_iff]; exact h2
    unfold generate_report
    rw [hne]
    simp only [Bool.false_eq_true, if_false, h2', if_true]
    refine ⟨trivial, ?_⟩
    exact List.mem_cons_of_mem _
      (List.mem_append_right _ (List.mem_singleton.mpr rfl))

/-- Witness for C9 at a directory holding only a legacy-format file. -/
theorem C9_witness :
    skipMsg "old_log.csv" ∈ (generate_report oldDir).msgs ∧
    (generate_report oldDir).outcome = Outcome.halted ∧
    noValidMsg ∈ (generate_report oldDir).msgs := by
  have hf : oldFile ∈ discover oldDir := by
    have hd : discover oldDir = [oldFile] := rfl
    rw [hd]
    exact List.mem_singleton.mpr rfl
  have h := C9_old_format_skip oldDir oldFile oldDF hf rfl rfl
  exact ⟨h.1, h.2 rfl⟩

/-- Claim C8: with zero files matching the pattern, the pipeline prints
the no-log-files diagnostic and returns early writing nothing. -/
theorem C8_no_matching_files (dir : List FileInput)
    (h : dir.filter (fun f => matchesLogPattern f.name) = []) :
    generate_report dir = ⟨[noFilesMsg], Outcome.halted⟩ := by
  have hd : discover dir = [] := by
    unfold discover
    rw [h]
    rfl
  unfold generate_report
  rw [hd]
  rfl

/-- Witness for C8 at a directory with one non-matching file. -/
theorem C8_witness :
    generate_report [⟨"notes.txt", Except.error "x"⟩] = ⟨[noFilesMsg], Outcome.halted⟩ :=
  C8_no_matching_files _ rfl

/-- Claim C1 is a code bug, witnessed here by evaluating the code at the
failing input: the single file of `c1Dir` parses, passes the marker check
and has rows, but carries no slot pair, so the raw memory long table is
empty; the run then crashes in the groupby step (an empty raw frame has
no columns to group by) instead of writing a report whose rows 3 and 4
hold zero series. Had it reached the selector, the empty-table branch
returns a bare frame that the two-target unpacking at the call site also
rejects. -/
theorem C1_empty_long_table_crash :
    (loadValid (discover c1Dir)).2 = [c1DF] ∧
    coerceTs (concatDF [c1DF]) = Except.ok [(some 1, sysRow 1)] ∧
    extract_top_data (concatDF [c1DF]).cols "TopMem" "TopMem" 10 "MB"
      (sortByTs [(some 1, sysRow 1)]) = Except.ok [] ∧
    generate_report c1Dir
      = ⟨[foundMsg ["sys_log.csv"]], Outcome.crashed "KeyError: Timestamp"⟩ :=
  ⟨by decide, by decide, by decide, by decide⟩

/-- Counterexample to claim C2 as stated: the single file of `badValDir`
parses and passes the marker-column check, yet the run crashes with an
uncaught float-conversion error on the non-numeric slot value abc, so
errors after validation are not all handled locally. -/
theorem C2_counterexample :
    (loadValid (discover badValDir)).2 = [badValDF] ∧
    generate_report badValDir
      = ⟨[foundMsg ["b_log.csv"]],
         Outcome.crashed "ValueError: could not convert string to float: abc"⟩ :=
  ⟨by decide, by decide⟩

/-- Claim C2 (amended): the graceful halts without output are exactly the
runs in which no file survives validation, and any halted run printed one
of the two halt diagnostics; uncaught exceptions are a separate, reachable
outcome. -/
theorem C2_halt_characterization (dir : List FileInput) :
    ((generate_report dir).outcome = Outcome.halted
      ↔ (loadValid (discover dir)).2 = []) ∧
    ((generate_report dir).outcome = Outcome.halted →
      noFilesMsg ∈ (generate_report dir).msgs
        ∨ noValidMsg ∈ (generate_report dir).msgs) := by
  by_cases h1 : (discover dir).isEmpty
  · have hd : discover dir = [] := List.isEmpty_iff.mp h1
    have hr : generate_report dir = ⟨[noFilesMsg], Outcome.halted⟩ := by
      unfold generate_report
      rw [h1]
      rfl
    rw [hr, hd]
    exact ⟨⟨fun _ => rfl, fun _ => rfl⟩, fun _ => Or.inl (List.mem_singleton.mpr rfl)⟩
  · by_cases h2 : (loadValid (discover dir)).2.isEmpty
    · have hr : generate_report dir
          = ⟨foundMsg ((discover dir).map (fun f => f.name))
              :: (loadValid (discover dir)).1 ++ [noValidMsg], Outcome.halted⟩ := by
        unfold generate_report
        rw [Bool.eq_false_iff.mpr h1, h2]
        rfl
      rw [hr]
      refine ⟨⟨fun _ => List.isEmpty_iff.mp h2, fun _ => rfl⟩, fun _ => Or.inr ?_⟩
      exact List.mem_cons_of_mem _
        (List.mem_append_right _ (List.mem_singleton.mpr rfl))
    · have h2' : (loadValid (discover dir)).2 ≠ [] := by
        intro hx
        exact h2 (by rw [List.isEmpty_iff]; exact hx)
      unfold generate_report
      rw [if_neg h1, if_neg h2]
      cases hc : pipelineCore (loadValid (discover dir)).2 with
      | ok rep =>
        exact ⟨⟨fun hx => Outcome.noConfusion hx, fun hx => absurd hx h2'⟩,
          fun hx => Outcome.noConfusion hx⟩
      | error e =>
        exact ⟨⟨fun hx => Outcome.noConfusion hx, fun hx => absurd hx h2'⟩,
          fun hx => Outcome.noConfusion hx⟩

/-- Witness for the amended C2 at the legacy-only directory: the run
halts and one of the two halt diagnostics was printed. -/
theorem C2_witness :
    (generate_report oldDir).outcome = Outcome.halted ∧
    (noFilesMsg ∈ (generate_report oldDir).msgs
      ∨ noValidMsg ∈ (generate_report oldDir).msgs) :=
  ⟨by decide, (C2_halt_characterization oldDir).2 (by decide)⟩

theorem unpack2_names_le {df : List LongRow} {k : Nat}
    {pr : List LongRow × List String}
    (h : unpack2 (filter_top_consumers df k) = Except.ok pr) :
    pr.2.length ≤ k := by
  unfold filter_top_consumers at h
  by_cases hdf : df = []
  · rw [if_pos hdf] at h
    exact Except.noConfusion h
  · rw [if_neg hdf] at h
    simp only [unpack2, Except.ok.injEq] at h
    rw [← h]
    unfold topConsumers
    simp only [List.length_map, List.length_take]
    exact min_le_left _ _

theorem pipelineCore_fields {dfs : List DF} {rep : Report}
    (h : pipelineCore dfs = Except.ok rep) :
    ∃ dfm dfh,
      unpack2 (filter_top_consumers dfm 5)
        = Except.ok (rep.memFiltered, rep.memConsumers) ∧
      unpack2 (filter_top_consumers dfh 3)
        = Except.ok (rep.handleFiltered, rep.handleConsumers) ∧
      rep.row3Series = (if rep.memFiltered ≠ [] then rep.memConsumers.length else 0) ∧
      rep.row4Series = (if rep.handleFiltered ≠ [] then rep.handleConsumers.length else 0) := by
  unfold pipelineCore at h
  simp only [bind, Except.bind] at h
  split at h
  · exact Except.noConfusion h
  case _ rs hrs =>
  split at h
  · exact Except.noConfusion h
  case _ mraw hmraw =>
  split at h
  · exact Except.noConfusion h
  case _ dfm hdfm =>
  split at h
  · exact Except.noConfusion h
  case _ hraw hhraw =>
  split at h
  · exact Except.noConfusion h
  case _ dfh hdfh =>
  split at h
  · exact Except.noConfusion h
  case _ mpr hmpr =>
  split at h
  · exact Except.noConfusion h
  case _ hpr hhpr =>
  split at h
  · exact Except.noConfusion h
  split at h
  · exact Except.noConfusion h
  split at h
  · exact Except.noConfusion h
  split at h
  · exact Except.noConfusion h
  rw [Except.ok.injEq] at h
  subst h
  exact ⟨dfm, dfh, by rw [hmpr], by rw [hhpr], rfl, rfl⟩

/-- Implicit claim C10: the pipeline invokes the selector with K fixed to
5 for the memory family and 3 for the handle family (the default 10 of
the source is never used), so any written report has at most 5 memory
consumers and series on chart row 3, and at most 3 handle consumers and
series on chart row 4. -/
theorem C10_family_K_caps (dir : List FileInput) (rep : Report)
    (h : (generate_report dir).outcome = Outcome.wrote rep) :
    rep.memConsumers.length ≤ 5 ∧ rep.row3Series ≤ 5 ∧
    rep.handleConsumers.length ≤ 3 ∧ rep.row4Series ≤ 3 := by
  have hcore : ∃ dfs, pipelineCore dfs = Except.ok rep := by
    unfold generate_report at h
    by_cases h1 : (discover dir).isEmpty
    · rw [if_pos h1] at h
      exact Outcome.noConfusion h
    · rw [if_neg h1] at h
      by_cases h2 : (loadValid (discover dir)).2.isEmpty
      · rw [if_pos h2] at h
        exact Outcome.noConfusion h
      · rw [if_neg h2] at h
        cases hc : pipelineCore (loadValid (discover dir)).2 with
        | ok rep2 =>
          rw [hc] at h
          simp only [Outcome.wrote.injEq] at h
          exact ⟨(loadValid (discover dir)).2, by rw [hc, h]⟩
        | error e =>
          rw [hc] at h
          exact Outcome.noConfusion h
  obtain ⟨dfs, hc⟩ := hcore
  obtain ⟨dfm, dfh, hm, hh, h3, h4⟩ := pipelineCore_fields hc
  have lm : rep.memConsumers.length ≤ 5 :=
    @unpack2_names_le dfm 5 (rep.memFiltered, rep.memConsumers) hm
  have lh : rep.handleConsumers.length ≤ 3 :=
    @unpack2_names_le dfh 3 (rep.handleFiltered, rep.handleConsumers) hh
  refine ⟨lm, ?_, lh, ?_⟩
  · rw [h3]
    split
    · exact lm
    · exact Nat.zero_le _
  · rw [h4]
    split
    · exact lh
    · exact Nat.zero_le _

/-- Witness for C10 at the sample directory. -/
theorem C10_witness :
    (generate_report sampleDir).outcome = Outcome.wrote sampleReport ∧
    (sampleReport.memConsumers.length ≤ 5 ∧ sampleReport.row3Series ≤ 5 ∧
      sampleReport.handleConsumers.length ≤ 3 ∧ sampleReport.row4Series ≤ 3) :=
  ⟨by decide, C10_family_K_caps sampleDir sampleReport (by decide)⟩

theorem coerceRows_length {rows : List RowA} {rs : List (Option ℚ × RowA)}
    (h : coerceRows rows = Except.ok rs) : rs.length = rows.length := by
  induction rows generalizing rs with
  | nil =>
    simp only [coerceRows, Except.ok.injEq] at h
    rw [← h]
    rfl
  | cons r rest ih =>
    simp only [coerceRows, bind, Except.bind] at h
    split at h
    · exact Except.noConfusion h
    split at h
    · exact Except.noConfusion h
    rename_i t _ rs2 hrs2
    rw [Except.ok.injEq] at h
    rw [← h]
    simp only [List.length_cons]
    rw [ih hrs2]

/-- Claim C7: with at least one valid file, the merged table has exactly
as many rows as the valid files together, and the timestamp-coerced table,
once sorted, still has that many rows and is non-decreasing in the
timestamp order. -/
theorem C7_merged_count_sorted (dir : List FileInput)
    (hvalid : (loadValid (discover dir)).2 ≠ []) :
    (concatDF (loadValid (discover dir)).2).rows.length
      = (((loadValid (discover dir)).2).map (fun d => d.rows.length)).sum ∧
    ∀ rs, coerceTs (concatDF (loadValid (discover dir)).2) = Except.ok rs →
      (sortByTs rs).length
        = (((loadValid (discover dir)).2).map (fun d => d.rows.length)).sum ∧
      List.Sorted tsRowLe (sortByTs rs) := by
  have hlen : (concatDF (loadValid (discover dir)).2).rows.length
      = (((loadValid (discover dir)).2).map (fun d => d.rows.length)).sum := by
    show ((((loadValid (discover dir)).2).map (fun d => d.rows)).flatten).length = _
    rw [List.length_flatten, List.map_map]
    rfl
  refine ⟨hlen, fun rs hrs => ?_⟩
  have hcr : coerceRows (concatDF (loadValid (discover dir)).2).rows = Except.ok rs := by
    unfold coerceTs at hrs
    split at hrs
    · exact hrs
    · exact Except.noConfusion hrs
  constructor
  · show (List.insertionSort tsRowLe rs).length = _
    rw [List.length_insertionSort, coerceRows_length hcr, hlen]
  · exact List.sorted_insertionSort tsRowLe rs

/-- Witness for C7 at the sample directory: two rows merge from the one
valid file and come out sorted by timestamp. -/
theorem C7_witness :
    coerceTs (concatDF (loadValid (discover sampleDir)).2)
      = Except.ok [(some 2, goodRow1), (some 1, goodRow2)] ∧
    (sortByTs [(some 2, goodRow1), (some 1, goodRow2)]).length = 2 ∧
    List.Sorted tsRowLe (sortByTs [(some 2, goodRow1), (some 1, goodRow2)]) := by
  have h := (C7_merged_count_sorted sampleDir (by decide)).2
    [(some 2, goodRow1), (some 1, goodRow2)] (by decide)
  exact ⟨by decide, h.1.trans (by decide), h.2⟩

theorem contains_eq_true_iff {l : List String} {x : String} :
    l.contains x = true ↔ x ∈ l :=
  List.elem_iff

theorem mem_distinctNamesSorted {df : List LongRow} {n : String} :
    n ∈ distinctNamesSorted df ↔ ∃ r ∈ df, r.name = n := by
  unfold distinctNamesSorted
  rw [List.mem_insertionSort, List.mem_dedup, List.mem_map]

theorem nodup_distinctNamesSorted (df : List LongRow) :
    (distinctNamesSorted df).Nodup :=
  ((List.perm_insertionSort _ _).nodup_iff).mpr (List.nodup_dedup _)

theorem length_sortedUsage (df : List LongRow) :
    (sortedUsage df).length = (distinctNamesSorted df).length := by
  unfold sortedUsage max_usage
  rw [List.length_insertionSort, List.length_map]

theorem mem_sortedUsage {df : List LongRow} {a : String × ℚ}
    (ha : a ∈ sortedUsage df) :
    a.1 ∈ distinctNamesSorted df ∧ a = (a.1, maxValAt df a.1) := by
  unfold sortedUsage max_usage at ha
  rw [List.mem_insertionSort, List.mem_map] at ha
  obtain ⟨n, hn, he⟩ := ha
  rw [← he]
  exact ⟨hn, rfl⟩

theorem sortedUsage_map_fst_perm (df : List LongRow) :
    List.Perm ((sortedUsage df).map (fun p => p.1)) (distinctNamesSorted df) := by
  have h1 : List.Perm ((sortedUsage df).map (fun p => p.1))
      ((max_usage df).map (fun p => p.1)) :=
    (List.perm_insertionSort descBySnd (max_usage df)).map _
  have h2 : (max_usage df).map (fun p => p.1) = distinctNamesSorted df := by
    unfold max_usage
    rw [List.map_map]
    exact List.map_id _
  rw [h2] at h1
  exact h1

theorem sorted_sortedUsage (df : List LongRow) :
    List.Pairwise descBySnd (sortedUsage df) :=
  List.sorted_insertionSort descBySnd (max_usage df)

theorem nodup_topConsumers (df : List LongRow) (k : Nat) :
    (topConsumers df k).Nodup := by
  have hmap : ((sortedUsage df).map (fun p => p.1)).Nodup :=
    (sortedUsage_map_fst_perm df).nodup_iff.mpr (nodup_distinctNamesSorted df)
  unfold topConsumers
  rw [List.map_take]
  exact List.Nodup.sublist (List.take_sublist _ _) hmap

theorem mem_topConsumers {df : List LongRow} {k : Nat} {n : String}
    (h : n ∈ topConsumers df k) : n ∈ distinctNamesSorted df := by
  unfold topConsumers at h
  obtain ⟨a, ha, rfl⟩ := List.mem_map.mp h
  exact (mem_sortedUsage (List.take_subset _ _ ha)).1

theorem topConsumers_all {df : List LongRow} {k : Nat}
    (hk : (distinctNamesSorted df).length ≤ k) :
    ∀ n, n ∈ topConsumers df k ↔ n ∈ distinctNamesSorted df := by
  intro n
  unfold topConsumers
  rw [List.take_of_length_le (by rw [length_sortedUsage]; exact hk)]
  exact (sortedUsage_map_fst_perm df).mem_iff

theorem mem_distinct_filter_contains {df : List LongRow} {ns : List String}
    {n : String} :
    n ∈ distinctNamesSorted (df.filter (fun r => ns.contains r.name))
      ↔ n ∈ ns ∧ n ∈ distinctNamesSorted df := by
  rw [mem_distinctNamesSorted]
  constructor
  · rintro ⟨r, hr, rfl⟩
    rw [List.mem_filter] at hr
    exact ⟨contains_eq_true_iff.mp hr.2, mem_distinctNamesSorted.mpr ⟨r, hr.1, rfl⟩⟩
  · rintro ⟨hn, hd⟩
    obtain ⟨r, hr, rfl⟩ := mem_distinctNamesSorted.mp hd
    exact ⟨r, List.mem_filter.mpr ⟨hr, contains_eq_true_iff.mpr hn⟩, rfl⟩

/-- Claim C4: on a non-empty long table the selector returns the pair of
filtered table and selected names, where the names are distinct, exactly
min K (number of distinct names) of them, each a process name of the
table, listed in descending order of per-name maximum value, every
unselected name's maximum is at most every selected one's, and the
filtered table keeps exactly the rows whose name was selected. -/
theorem C4_topK_selector (df : List LongRow) (K : Nat) (hdf : df ≠ []) :
    ∃ f ns, filter_top_consumers df K = FTCResult.pair f ns ∧
      ns.Nodup ∧
      ns.length = min K (distinctNamesSorted df).length ∧
      (∀ n ∈ ns, n ∈ distinctNamesSorted df) ∧
      ns.Pairwise (fun a b => maxValAt df b ≤ maxValAt df a) ∧
      (∀ m ∈ distinctNamesSorted df, m ∉ ns →
        ∀ n ∈ ns, maxValAt df m ≤ maxValAt df n) ∧
      f = df.filter (fun r => ns.contains r.name) := by
  refine ⟨df.filter (fun r => (topConsumers df K).contains r.name), topConsumers df K,
    by unfold filter_top_consumers; rw [if_neg hdf], nodup_topConsumers df K, ?_,
    fun n hn => mem_topConsumers hn, ?_, ?_, rfl⟩
  · unfold topConsumers
    rw [List.length_map, List.length_take, length_sortedUsage]
  · have hpw : List.Pairwise descBySnd ((sortedUsage df).take K) :=
      List.Pairwise.sublist (List.take_sublist _ _) (sorted_sortedUsage df)
    unfold topConsumers
    rw [List.pairwise_map]
    refine List.Pairwise.imp_of_mem ?_ hpw
    intro a b ha hb hab
    have sa := (mem_sortedUsage (List.take_subset _ _ ha)).2
    have sb := (mem_sortedUsage (List.take_subset _ _ hb)).2
    have ha2 : a.2 = maxValAt df a.1 := by rw [sa]
    have hb2 : b.2 = maxValAt df b.1 := by rw [sb]
    rw [← ha2, ← hb2]
    exact hab
  · intro m hm hmns n hn
    have hmmu : (m, maxValAt df m) ∈ sortedUsage df := by
      unfold sortedUsage max_usage
      rw [List.mem_insertionSort, List.mem_map]
      exact ⟨m, hm, rfl⟩
    have hsplit := List.take_append_drop K (sortedUsage df)
    have hpw : List.Pairwise descBySnd
        ((sortedUsage df).take K ++ (sortedUsage df).drop K) := by
      rw [hsplit]
      exact sorted_sortedUsage df
    obtain ⟨-, -, hcross⟩ := List.pairwise_append.mp hpw
    have hmdrop : (m, maxValAt df m) ∈ (sortedUsage df).drop K := by
      rcases List.mem_append.mp (by rw [hsplit]; exact hmmu) with hin | hin
      · exact absurd (List.mem_map.mpr ⟨_, hin, rfl⟩) hmns
      · exact hin
    obtain ⟨a, ha, hafst⟩ := List.mem_map.mp hn
    have hashape := (mem_sortedUsage (List.take_subset _ _ ha)).2
    have hle : maxValAt df m ≤ a.2 := hcross a ha _ hmdrop
    have ha2 : a.2 = maxValAt df a.1 := by rw [hashape]
    rw [ha2, hafst] at hle
    exact hle

/-- Witness for C4 at a concrete two-name table with K 1. -/
theorem C4_witness :
    filter_top_consumers wLong 1 = FTCResult.pair [⟨some 1, "A", 10⟩] ["A"] ∧
    (∃ f ns, filter_top_consumers wLong 1 = FTCResult.pair f ns ∧
      ns.Nodup ∧
      ns.length = min 1 (distinctNamesSorted wLong).length ∧
      (∀ n ∈ ns, n ∈ distinctNamesSorted wLong) ∧
      ns.Pairwise (fun a b => maxValAt wLong b ≤ maxValAt wLong a) ∧
      (∀ m ∈ distinctNamesSorted wLong, m ∉ ns →
        ∀ n ∈ ns, maxValAt wLong m ≤ maxValAt wLong n) ∧
      f = wLong.filter (fun r => ns.contains r.name)) :=
  ⟨by decide, C4_topK_selector wLong 1 (by decide)⟩

theorem topConsumers_length_le (df : List LongRow) (k : Nat) :
    (topConsumers df k).length ≤ k := by
  unfold topConsumers
  rw [List.length_map, List.length_take]
  exact min_le_left _ _

/-- Claim C5: reapplying the selector to the filtered table it returned,
with the same K, returns the same filtered table and selects the same set
of process names (the empty branch of the selector returns no name list;
it selects the empty set). -/
theorem C5_idempotent (df : List LongRow) (K : Nat) :
    (filter_top_consumers (filter_top_consumers df K).table K).table
      = (filter_top_consumers df K).table ∧
    (filter_top_consumers (filter_top_consumers df K).table K).selected
      = (filter_top_consumers df K).selected := by
  by_cases hdf : df = []
  · subst hdf
    exact ⟨rfl, rfl⟩
  · have h1 : filter_top_consumers df K = FTCResult.pair
        (df.filter (fun r => (topConsumers df K).contains r.name))
        (topConsumers df K) := by
      unfold filter_top_consumers
      rw [if_neg hdf]
    rw [h1]
    simp only [FTCResult.table, FTCResult.selected]
    by_cases hf : df.filter (fun r => (topConsumers df K).contains r.name) = []
    · rw [hf]
      have hns : topConsumers df K = [] := by
        by_contra hne
        obtain ⟨n, hn⟩ := List.exists_mem_of_ne_nil _ hne
        obtain ⟨r, hr, rfl⟩ := mem_distinctNamesSorted.mp (mem_topConsumers hn)
        have hrf : r ∈ df.filter (fun x => (topConsumers df K).contains x.name) :=
          List.mem_filter.mpr ⟨hr, contains_eq_true_iff.mpr hn⟩
        rw [hf] at hrf
        cases hrf
      rw [hns]
      exact ⟨rfl, rfl⟩
    · have h2 : filter_top_consumers
          (df.filter (fun r => (topConsumers df K).contains r.name)) K
          = FTCResult.pair
            ((df.filter (fun r => (topConsumers df K).contains r.name)).filter
              (fun r => (topConsumers
                (df.filter (fun x => (topConsumers df K).contains x.name)) K).contains r.name))
            (topConsumers
              (df.filter (fun r => (topConsumers df K).contains r.name)) K) := by
        unfold filter_top_consumers
        rw [if_neg hf]
      rw [h2]
      simp only [FTCResult.table, FTCResult.selected]
      have hmemf : ∀ n, n ∈ distinctNamesSorted
          (df.filter (fun r => (topConsumers df K).contains r.name))
          ↔ n ∈ topConsumers df K := by
        intro n
        rw [mem_distinct_filter_contains]
        exact ⟨fun hx => hx.1, fun hx => ⟨hx, mem_topConsumers hx⟩⟩
      have hlenf : (distinctNamesSorted
          (df.filter (fun r => (topConsumers df K).contains r.name))).length ≤ K := by
        have hsub := List.subperm_of_subset
          (nodup_distinctNamesSorted
            (df.filter (fun r => (topConsumers df K).contains r.name)))
          (fun x hx => (hmemf x).mp hx)
        exact le_trans hsub.length_le (topConsumers_length_le df K)
      have hmem2 : ∀ n, n ∈ topConsumers
          (df.filter (fun r => (topConsumers df K).contains r.name)) K
          ↔ n ∈ topConsumers df K := by
        intro n
        rw [topConsumers_all hlenf n]
        exact hmemf n
      constructor
      · apply List.filter_eq_self.mpr
        intro r hr
        exact contains_eq_true_iff.mpr
          ((topConsumers_all hlenf r.name).mpr
            (mem_distinctNamesSorted.mpr ⟨r, hr, rfl⟩))
      · apply Finset.ext
        intro n
        rw [List.mem_toFinset, List.mem_toFinset]
        exact hmem2 n

/-- Claim C6: when K strictly exceeds the number of distinct process
names, the selector keeps the whole table and selects exactly the set of
all distinct names. -/
theorem C6_K_exceeds_distinct (df : List LongRow) (K : Nat)
    (h : (distinctNamesSorted df).length < K) :
    (filter_top_consumers df K).table = df ∧
    (filter_top_consumers df K).selected = (distinctNamesSorted df).toFinset := by
  by_cases hdf : df = []
  · subst hdf
    exact ⟨rfl, rfl⟩
  · have h1 : filter_top_consumers df K = FTCResult.pair
        (df.filter (fun r => (topConsumers df K).contains r.name))
        (topConsumers df K) := by
      unfold filter_top_consumers
      rw [if_neg hdf]
    rw [h1]
    simp only [FTCResult.table, FTCResult.selected]
    have hall := topConsumers_all (le_of_lt h)
    constructor
    · apply List.filter_eq_self.mpr
      intro r hr
      exact contains_eq_true_iff.mpr
        ((hall r.name).mpr (mem_distinctNamesSorted.mpr ⟨r, hr, rfl⟩))
    · apply Finset.ext
      intro n
      rw [List.mem_toFinset, List.mem_toFinset]
      exact hall n

/-- Witness for C6 at the two-name table with K 3. -/
theorem C6_witness :
    filter_top_consumers wLong 3 = FTCResult.pair wLong ["A", "B"] ∧
    (filter_top_consumers wLong 3).table = wLong ∧
    (filter_top_consumers wLong 3).selected = (distinctNamesSorted wLong).toFinset :=
  ⟨by decide, C6_K_exceeds_distinct wLong 3 (by decide)⟩

theorem extractSlot_ok {cols : List String} {ts : Option ℚ} {row : RowA}
    {prefix_name prefix_val val_col_name : String} {i : Nat} {x : List LongRow}
    (h : extractSlot cols ts row (nameColOf prefix_name i)
      (valColOf prefix_val i val_col_name) = Except.ok x) :
    x = (slotSpec cols prefix_name prefix_val val_col_name (ts, row) i).toList := by
  unfold extractSlot at h
  unfold slotSpec
  by_cases hA : cols.contains (nameColOf prefix_name i)
      ∧ cols.contains (valColOf prefix_val i val_col_name)
  · rw [if_pos hA] at h
    by_cases hB : rowCell row (nameColOf prefix_name i) ≠ Cell.null
        ∧ rowCell row (valColOf prefix_val i val_col_name) ≠ Cell.null
    · rw [if_pos hB] at h
      rw [if_pos ⟨hA, hB⟩]
      cases hv : pyFloat (rowCell row (valColOf prefix_val i val_col_name)) with
      | ok v =>
        rw [hv] at h
        simp only [Except.map, Except.ok.injEq] at h
        rw [← h]
        rfl
      | error e =>
        rw [hv] at h
        simp only [Except.map] at h
        exact Except.noConfusion h
    · rw [if_neg hB] at h
      rw [if_neg (fun hx => hB hx.2)]
      rw [Except.ok.injEq] at h
      rw [← h]
      rfl
  · rw [if_neg hA] at h
    rw [if_neg (fun hx => hA hx.1)]
    rw [Except.ok.injEq] at h
    rw [← h]
    rfl

theorem extractRowSlots_ok {cols : List String} {ts : Option ℚ} {row : RowA}
    {prefix_name prefix_val val_col_name : String} {is : List Nat} {x : List LongRow}
    (h : extractRowSlots cols ts row prefix_name prefix_val val_col_name is
      = Except.ok x) :
    x = is.filterMap (slotSpec cols prefix_name prefix_val val_col_name (ts, row)) := by
  induction is generalizing x with
  | nil =>
    rw [extractRowSlots, Except.ok.injEq] at h
    rw [← h]
    rfl
  | cons i is ih =>
    simp only [extractRowSlots, bind, Except.bind] at h
    split at h
    · exact Except.noConfusion h
    rename_i a ha
    split at h
    · exact Except.noConfusion h
    rename_i b hb
    rw [Except.ok.injEq] at h
    rw [← h, List.filterMap_cons, extractSlot_ok ha, ih hb]
    cases slotSpec cols prefix_name prefix_val val_col_name (ts, row) i with
    | none => rfl
    | some v => rfl

theorem extract_top_data_ok {cols : List String}
    {prefix_name prefix_val val_col_name : String} {count : Nat}
    {rows : List (Option ℚ × RowA)} {l : List LongRow}
    (h : extract_top_data cols prefix_name prefix_val count val_col_name rows
      = Except.ok l) :
    l = extract_spec cols prefix_name prefix_val count val_col_name rows := by
  induction rows generalizing l with
  | nil =>
    rw [extract_top_data, Except.ok.injEq] at h
    rw [← h]
    rfl
  | cons p rest ih =>
    simp only [extract_top_data, bind, Except.bind] at h
    split at h
    · exact Except.noConfusion h
    rename_i a ha
    split at h
    · exact Except.noConfusion h
    rename_i b hb
    rw [Except.ok.injEq] at h
    rw [← h, extractRowSlots_ok ha, ih hb]
    rfl

theorem nodup_sorted_rawKeys (l : List LongRow) :
    (List.insertionSort keyLe (rawKeys l)).Nodup :=
  (List.perm_insertionSort _ _).nodup_iff.mpr (List.nodup_dedup _)

theorem filter_eq_singleton_of_nodup {l : List (ℚ × String)} (hnd : l.Nodup)
    (a : ℚ × String) :
    l.filter (fun k => decide (k = a)) = if a ∈ l then [a] else [] := by
  induction l with
  | nil => rfl
  | cons k rest ih =>
    rw [List.nodup_cons] at hnd
    by_cases hk : k = a
    · subst hk
      rw [List.filter_cons_of_pos (by simp), ih hnd.2,
        if_neg (fun hx => hnd.1 hx), if_pos (List.mem_cons_self _ _)]
    · rw [List.filter_cons_of_neg (by simp [hk]), ih hnd.2]
      by_cases hm : a ∈ rest
      · rw [if_pos hm, if_pos (List.mem_cons_of_mem _ hm)]
      · rw [if_neg hm, if_neg (by
          intro hx
          rcases List.mem_cons.mp hx with hx | hx
          · exact hk hx.symm
          · exact hm hx)]

theorem groupby_filter_key (l : List LongRow) (t : ℚ) (n : String) :
    (groupby_ts_name l).filter (fun r => decide (r.ts = some t ∧ r.name = n))
      = if (t, n) ∈ rawKeys l then [⟨some t, n, sumAt l t n⟩] else [] := by
  unfold groupby_ts_name
  rw [List.filter_map]
  have hpred : ((fun r : LongRow => decide (r.ts = some t ∧ r.name = n)) ∘
      (fun k : ℚ × String => (⟨some k.1, k.2, sumAt l k.1 k.2⟩ : LongRow)))
      = fun k : ℚ × String => decide (k = (t, n)) := by
    funext k
    simp only [Function.comp]
    rw [decide_eq_decide]
    rw [Option.some_inj, Prod.ext_iff]
  rw [hpred, filter_eq_singleton_of_nodup (nodup_sorted_rawKeys l) (t, n)]
  by_cases hm : (t, n) ∈ rawKeys l
  · rw [if_pos ((List.mem_insertionSort keyLe).mpr hm), if_pos hm]
    rfl
  · rw [if_neg (fun hx => hm ((List.mem_insertionSort keyLe).mp hx)), if_neg hm]
    rfl

/-- Claim C3: whenever the reshaper succeeds, its raw long table is
exactly the one-row-per-present-non-null-(row, slot) table of the spec,
and the grouped table holds, for each distinct non-NaT (timestamp, name)
key of the raw table, exactly one row whose value is the sum of the raw
values at that key (and no rows at absent keys). -/
theorem C3_reshape_and_group (cols : List String) (prefix_name prefix_val : String)
    (count : Nat) (val_col_name : String) (rows : List (Option ℚ × RowA))
    (l : List LongRow)
    (h : extract_top_data cols prefix_name prefix_val count val_col_name rows
      = Except.ok l) :
    l = extract_spec cols prefix_name prefix_val count val_col_name rows ∧
    ∀ t n, (groupby_ts_name l).filter (fun r => decide (r.ts = some t ∧ r.name = n))
      = if (t, n) ∈ rawKeys l then [⟨some t, n, sumAt l t n⟩] else [] :=
  ⟨extract_top_data_ok h, fun t n => groupby_filter_key l t n⟩

/-- Witness for C3 at the sample table: the scenario of a process in two
slots at one timestamp with values 10 and 15 groups to a single row with
value 25. -/
theorem C3_witness :
    extract_top_data goodCols "TopMem" "TopMem" 10 "MB" sampleMain
      = Except.ok sampleMemRaw ∧
    sampleMemRaw = extract_spec goodCols "TopMem" "TopMem" 10 "MB" sampleMain ∧
    groupby_ts_name sampleMemRaw = [⟨some 1, "C", 7⟩, ⟨some 2, "A", 25⟩] ∧
    (groupby_ts_name sampleMemRaw).filter
        (fun r => decide (r.ts = some 2 ∧ r.name = "A"))
      = [⟨some 2, "A", 25⟩] := by
  have h := C3_reshape_and_group goodCols "TopMem" "TopMem" 10 "MB" sampleMain
    sampleMemRaw (by decide)
  refine ⟨by decide, h.1, by decide, ?_⟩
  rw [h.2 2 "A"]
  decide

end VisualizeLog
